import Mathlib

/-!
Verification of the agent control loop of `us_stock_agent`
(`llm_agent.py`, `tools.py`, `app.py`), as a shallow embedding in Lean 4.

External collaborators (the model-completion provider, the individual
tools' network-bound `run` bodies, `json.loads` / `json.dumps`, and the
wall clock) are modelled as parameters of an `Env` record; everything
else is translated directly from the Python source.
-/

namespace StockAgent

/-- A Python/JSON value as it flows through the agent loop: `None`,
booleans, numbers (the claims under study never exercise float
arithmetic, so numbers are modelled as integers), strings,
`pd.Timestamp` objects (carrying their `str()` rendering), lists, and
dicts (association lists in insertion order, as in Python 3.7+). -/
inductive Val where
  | vnull
  | vbool (b : Bool)
  | vint (n : Int)
  | vstr (s : String)
  | vtimestamp (s : String)
  | vlist (xs : List Val)
  | vdict (kvs : List (Val × Val))
deriving Inhabited

namespace Val

/-- Python truthiness (`bool(v)`): `None`, `False`, `0`, `""`, `[]`,
and the empty dict are falsy, everything else (including any
`pd.Timestamp`) is truthy. -/
def truthy : Val → Bool
  | .vnull => false
  | .vbool b => b
  | .vint n => n != 0
  | .vstr s => !s.isEmpty
  | .vtimestamp _ => true
  | .vlist xs => !xs.isEmpty
  | .vdict kvs => !kvs.isEmpty

/-- The Python type name of a value (as it appears in `AttributeError`
messages such as `'list' object has no attribute 'get'`). -/
def typeName : Val → String
  | .vnull => "NoneType"
  | .vbool _ => "bool"
  | .vint _ => "int"
  | .vstr _ => "str"
  | .vtimestamp _ => "Timestamp"
  | .vlist _ => "list"
  | .vdict _ => "dict"

mutual

/-- Python `repr(v)`, used by `str` on containers.  String escaping
inside `repr` is elided (no claim depends on it). -/
def pyRepr : Val → String
  | .vnull => "None"
  | .vbool true => "True"
  | .vbool false => "False"
  | .vint n => toString n
  | .vstr s => "'" ++ s ++ "'"
  | .vtimestamp s => "Timestamp('" ++ s ++ "')"
  | .vlist xs => "[" ++ pyReprList xs ++ "]"
  | .vdict kvs => "\x7b" ++ pyReprDict kvs ++ "\x7d"

/-- Comma-joined `repr`s of a list's elements. -/
def pyReprList : List Val → String
  | [] => ""
  | [x] => pyRepr x
  | x :: xs => pyRepr x ++ ", " ++ pyReprList xs

/-- Comma-joined `repr(k): repr(v)` renderings of a dict's entries. -/
def pyReprDict : List (Val × Val) → String
  | [] => ""
  | [(k, v)] => pyRepr k ++ ": " ++ pyRepr v
  | (k, v) :: kvs => pyRepr k ++ ": " ++ pyRepr v ++ ", " ++ pyReprDict kvs

end

/-- Python `str(v)`: the string itself for `str`, the plain timestamp
rendering for `pd.Timestamp`, and `repr`-style rendering otherwise.
This is what an f-string interpolation `f"... {v} ..."` inserts. -/
def pyStr : Val → String
  | .vstr s => s
  | .vtimestamp s => s
  | v => pyRepr v

/-- Dict lookup by a string key (`d[k]` / `k in d` with `k : str`): the
first entry whose key is the string `k`.  Non-string keys never compare
equal to a Python string. -/
def dictGet? (kvs : List (Val × Val)) (key : String) : Option Val :=
  match kvs with
  | [] => none
  | (k, v) :: tl =>
    match k with
    | .vstr s => if s = key then some v else dictGet? tl key
    | _ => dictGet? tl key

/-- `isinstance(v, dict)`. -/
def isDict : Val → Bool
  | .vdict _ => true
  | _ => false

/-- `isinstance(v, list)`. -/
def isList : Val → Bool
  | .vlist _ => true
  | _ => false

/-- `v is None`. -/
def isNone : Val → Bool
  | .vnull => true
  | _ => false

/-- Python `v == n` against an `int` literal: numbers compare by value
and `bool` counts as `0`/`1`; no other value equals an `int`. -/
def pyEqInt (v : Val) (n : Int) : Bool :=
  match v with
  | .vint m => m = n
  | .vbool b => (if b then (1 : Int) else 0) = n
  | _ => false

/-- Python `v == s` against a `str` literal: only equal strings match.
(`pd.Timestamp` comparison with a non-date string like `"N/A"` is not
equality either.) -/
def pyEqStr (v : Val) (s : String) : Bool :=
  match v with
  | .vstr t => t = s
  | _ => false

end Val

/-- Builds a string-keyed dict value, in the given insertion order. -/
def sdict (l : List (String × Val)) : Val :=
  .vdict (l.map fun p => (.vstr p.1, p.2))

/-! ## The directive parser (`LLMStockAgent._parse_tool_call`) -/

/-- Python's whitespace set for `str.strip()`. -/
def isPySpace (c : Char) : Bool :=
  c = ' ' || c = '\t' || c = '\n' || c = '\r' || c = '\x0b' || c = '\x0c'

/-- `str.strip()`: drop leading and trailing whitespace. -/
def pyStrip (l : List Char) : List Char :=
  ((l.dropWhile isPySpace).reverse.dropWhile isPySpace).reverse

/-- `haystack.find(pat)` on character lists: index of the first
occurrence of `pat`, or `none` (Python returns `-1`). -/
def strFind (pat : List Char) : List Char → Option Nat
  | [] => if pat.isEmpty then some 0 else none
  | c :: tl =>
    if pat.isPrefixOf (c :: tl) then some 0
    else (strFind pat tl).map (· + 1)

/-- The fixed opening marker `<tool_call>`. -/
def start_tag : List Char := "<tool_call>".data

/-- The fixed closing marker `</tool_call>`. -/
def end_tag : List Char := "</tool_call>".data

/-- `LLMStockAgent._parse_tool_call` (llm_agent.py 93-115): locate the
first occurrence of each marker; if either is absent return `None`;
otherwise slice the text strictly between them (an empty slice when the
closing marker comes first, as in Python), strip whitespace, and hand
the payload to `json.loads` (the `loads` parameter; `none` models a
`json.JSONDecodeError`, which the source catches and turns into `None`).
Whatever `json.loads` produces is returned as-is: the source performs no
shape validation on the parsed value. -/
def parse_tool_call (loads : String → Option Val) (response : String) : Option Val :=
  let cs := response.data
  match strFind start_tag cs, strFind end_tag cs with
  | some start_idx, some end_idx =>
    let payload := (cs.drop (start_idx + start_tag.length)).take
      (end_idx - (start_idx + start_tag.length))
    loads (String.mk (pyStrip payload))
  | _, _ => none

/-! ## Tool registry (`tools.py`: `ToolManager`) -/

/-- The tool names registered by `ToolManager.__init__` (tools.py
613-624), in registration order.  Note the news tool is registered under
`"get_news"` (tools.py 209). -/
def registryNames : List String :=
  ["get_historical_data", "get_financial_statements", "get_news",
   "calculate_technical_indicators", "get_stock_info", "get_historical_pe_eps"]

/-- `ToolManager.get_tool` (tools.py 626-632): a plain `dict.get` — it
never raises, and absence yields `None`.  We do not model the tool
objects themselves (their `run` bodies are network-bound and external),
only which names resolve; a successful lookup is represented by the
resolved name.  A non-string directive name never equals a string
registry key, hence is never found. -/
def get_tool (tool_name : Val) : Option String :=
  match tool_name with
  | .vstr s => if s ∈ registryNames then some s else none
  | _ => none

/-! ## Result validation (`LLMStockAgent._validate_tool_result`) -/

open Val in
/-- The tool-specific quality heuristics inside the `try` of
`_validate_tool_result` (llm_agent.py 173-233), returning the
data-quality string together with the notes the branch appends, or — for
the `AttributeError`s the source can raise there (`summary.get` /
`metrics.items()` / `indicators.items()` on a non-dict) — the
exception's message, to be handled by the enclosing `except`.  Every
raise point occurs before the branch appends any note. -/
def toolChecks (tool_name : String) (result : Val) : Except String (String × List String) :=
  if tool_name = "get_historical_data" then
    match result with
    | .vdict kvs =>
      match dictGet? kvs "period_summary" with
      | some summary =>
        match summary with
        | .vdict skvs =>
          let total_days := (dictGet? skvs "total_days").getD (.vint 0)
          if pyEqInt total_days 0 then
            .ok ("poor", ["历史数据为空"])
          else if isNone ((dictGet? skvs "current_price").getD .vnull) then
            .ok ("poor", ["缺少当前价格数据"])
          else
            .ok ("good", ["获取到" ++ pyStr total_days ++ "天的历史数据"])
        | v => .error ("'" ++ v.typeName ++ "' object has no attribute 'get'")
      | none => .ok ("good", [])
    | _ => .ok ("good", [])
  else if tool_name = "get_financial_statements" then
    match result with
    | .vdict kvs =>
      match dictGet? kvs "key_metrics" with
      | some metrics =>
        match metrics with
        | .vdict mkvs =>
          let available := mkvs.filter fun p => !pyEqStr p.2 "N/A" && !isNone p.2
          if available.length < 3 then
            .ok ("poor", ["财务指标数据不完整"])
          else
            .ok ("good", ["获取到" ++ toString available.length ++ "个有效财务指标"])
        | v => .error ("'" ++ v.typeName ++ "' object has no attribute 'items'")
      | none => .ok ("good", [])
    | _ => .ok ("good", [])
  else if tool_name = "get_stock_news" then
    match result with
    | .vlist xs =>
      if xs.length = 0 then
        .ok ("poor", ["未找到相关新闻"])
      else
        .ok ("good", ["获取到" ++ toString xs.length ++ "条新闻"])
    | _ => .ok ("good", [])
  else if tool_name = "calculate_technical_indicators" then
    match result with
    | .vdict kvs =>
      match dictGet? kvs "indicators" with
      | some indicators =>
        match indicators with
        | .vdict ikvs =>
          let valid_indicators := (ikvs.map fun p =>
            match p.2 with
            | .vdict vkvs => (vkvs.filter fun q => !isNone q.2).length
            | v => if isNone v then 0 else 1).sum
          if valid_indicators < 5 then
            .ok ("poor", ["技术指标数据不完整"])
          else
            .ok ("good", ["计算出" ++ toString valid_indicators ++ "个有效技术指标"])
        | v => .error ("'" ++ v.typeName ++ "' object has no attribute 'items'")
      | none => .ok ("good", [])
    | _ => .ok ("good", [])
  else
    .ok ("good", [])

/-- Assembles the envelope dict of `_validate_tool_result`, in the
source's key insertion order (`status`, `tool`, `parameters`, `result`,
`data_quality`, `validation_notes`, and — only on the paths that reach
the timeliness section — `data_timestamp` last). -/
def mkEnvelope (tool_name : String) (parameters result : Val)
    (quality : String) (notes : List String) (timestamp : Option String) : Val :=
  sdict ([("status", .vstr "success"), ("tool", .vstr tool_name),
    ("parameters", parameters), ("result", result),
    ("data_quality", .vstr quality),
    ("validation_notes", .vlist (notes.map .vstr))] ++
    (match timestamp with
     | some t => [("data_timestamp", .vstr t)]
     | none => []))

open Val in
/-- `LLMStockAgent._validate_tool_result` (llm_agent.py 151-251).  The
wall-clock string recorded as `data_timestamp` is the external `now`
parameter.  A result that is a dict carrying an `"error"` key returns
early: `status` stays `"success"`, `data_quality` becomes `"error"`, one
note carries the error text, and neither the tool-specific checks nor
the timestamp section run.  An exception inside the checks is caught:
quality becomes `"unknown"` and the failure is recorded as a note (no
note precedes any raise point, and the timestamp section never raises,
so the caught path carries exactly the failure note). -/
def validate_tool_result (now : String) (tool_name : String)
    (result : Val) (parameters : Val) : Val :=
  if result.isDict && (match result with
      | .vdict kvs => (dictGet? kvs "error").isSome
      | _ => false) then
    mkEnvelope tool_name parameters result "error"
      ["工具返回错误: " ++ pyStr ((match result with
        | .vdict kvs => dictGet? kvs "error"
        | _ => none).getD .vnull)] none
  else
    match toolChecks tool_name result with
    | .ok (quality, notes) =>
      mkEnvelope tool_name parameters result quality
        (notes ++ ["数据获取时间: " ++ now]) (some now)
    | .error e =>
      mkEnvelope tool_name parameters result "unknown"
        ["验证过程出错: " ++ e] none

/-! ## Tool dispatch (`LLMStockAgent._run_tool`) -/

/-- The externally observable behaviour of `tool.run(**parameters)` for
a registered tool: either a returned value or the message of a raised
exception (network failure, bad parameters, `**`-unpacking failure, …).
These bodies are network-bound collaborators outside the loop. -/
abbrev RunBehavior := String → Val → Except String Val

open Val in
/-- `LLMStockAgent._run_tool` (llm_agent.py 117-149), given the
directive mapping's entries (the caller only ever reaches this call with
a dict directive — a non-dict would already have raised at the f-string
subscript on line 323 of the source).  `.get("name")` defaults to
`None`, `.get("parameters", {})` to the empty dict; a falsy name yields
the bare `{"error": "未指定工具名称"}` dict; an unresolved name yields the
bare `{"error": "未知工具: <name>"}` dict (note: neither carries a
`status` key); a raised `run` yields the five-field error envelope; a
returned `run` result is passed to the validator. -/
def run_tool (runB : RunBehavior) (now : String) (kvs : List (Val × Val)) : Val :=
  let tool_name := (dictGet? kvs "name").getD .vnull
  let parameters := (dictGet? kvs "parameters").getD (.vdict [])
  if !tool_name.truthy then
    sdict [("error", .vstr "未指定工具名称")]
  else
    match get_tool tool_name with
    | none => sdict [("error", .vstr ("未知工具: " ++ pyStr tool_name))]
    | some name =>
      match runB name parameters with
      | .error e =>
        sdict [("status", .vstr "error"), ("tool", tool_name),
          ("parameters", parameters), ("error", .vstr e),
          ("data_quality", .vstr "error")]
      | .ok result => validate_tool_result now name result parameters

/-! ## Transcript-safety normalization (`json_serializable`,
llm_agent.py 393-403) -/

mutual

/-- The recursive `json_serializable` helper: dict keys are coerced
with `str(k)`, `pd.Timestamp` values become their `str()`, lists map
elementwise, and every other value is returned unchanged. -/
def json_serializable : Val → Val
  | .vdict kvs => .vdict (jsonSerializableDict kvs)
  | .vlist xs => .vlist (jsonSerializableList xs)
  | .vtimestamp s => .vstr s
  | .vnull => .vnull
  | .vbool b => .vbool b
  | .vint n => .vint n
  | .vstr s => .vstr s

/-- Elementwise normalization of a list. -/
def jsonSerializableList : List Val → List Val
  | [] => []
  | x :: xs => json_serializable x :: jsonSerializableList xs

/-- Entrywise normalization of a dict: each key is coerced with
`str(k)` and each value normalized recursively. -/
def jsonSerializableDict : List (Val × Val) → List (Val × Val)
  | [] => []
  | (k, v) :: kvs => (.vstr k.pyStr, json_serializable v) :: jsonSerializableDict kvs

end

/-! ## The agent loop (`LLMStockAgent.analyze`, llm_agent.py 253-465)

The model-completion provider is modelled as an oracle `llm` indexed by
request order; the transcript submitted with each request is recorded in
a ghost `callLog`.  The `step_callback` observer is `None` throughout
(its branches are skipped, as in the buffered mode); `json.dumps` is the
external `dumps` parameter.  An uncaught Python exception (possible at
the `tool_call['name']` f-string on line 323 when the parsed directive
is a truthy non-dict or a dict without a `"name"` key) is modelled by
the `Except.error` case, carrying the exception rendering. -/

/-- One transcript turn. -/
structure Msg where
  role : String
  content : String
deriving Repr, DecidableEq

/-- Token-usage counters of one completion response. -/
structure Usage where
  prompt_tokens : Nat
  completion_tokens : Nat
  total_tokens : Nat
deriving Repr, DecidableEq

/-- One completion response: generated text plus usage counters. -/
structure Completion where
  content : String
  usage : Usage

/-- The external collaborators of one `analyze` run. -/
structure Env where
  llm : Nat → Completion
  runB : RunBehavior
  loads : String → Option Val
  dumps : Val → String
  now : String

/-- One Step Record (`step_data`, llm_agent.py 290-295, 369-370,
440-447).  The source appends the record and then sets the tool fields
on it in the same iteration; the record is built here in one piece with
the same final contents. -/
structure StepData where
  step : Nat
  llm_response : String
  token_usage : Usage
  tool_call : Option Val := none
  tool_result : Option Val := none
  is_final_summary : Bool := false

/-- The loop's mutable state: the transcript, the Step Log, the token
accumulator, the number of completion requests issued so far, and the
ghost log of the transcript submitted with each request. -/
structure LoopSt where
  hist : List Msg
  steps : List StepData
  tokens : Nat
  calls : Nat
  callLog : List (List Msg)

/-- Outcome of one loop iteration: `done` breaks with the final
analysis text, `cont` proceeds to the next iteration. -/
inductive StepOut where
  | done (final : String) (st : LoopSt)
  | cont (st : LoopSt)

/-- One iteration of the `for step in range(max_steps)` body
(llm_agent.py 264-412): request a completion over the transcript,
accumulate usage, append the text as an assistant turn, record a Step
Record, parse for a directive; a missing **or falsy** parsed directive
(`if not tool_call`, line 316) breaks with this text as the final
analysis; otherwise the directive is subscripted for its name (the
line-323 crash point), the tool is run, the envelope is recorded on the
step and its serialization appended as the next user turn. -/
def analyzeStep (env : Env) (stepIdx : Nat) (st : LoopSt) : Except String StepOut :=
  let resp := env.llm st.calls
  let tokens' := st.tokens + resp.usage.total_tokens
  let hist' := st.hist ++ [⟨"assistant", resp.content⟩]
  let base : StepData :=
    { step := stepIdx + 1, llm_response := resp.content, token_usage := resp.usage }
  let calls' := st.calls + 1
  let callLog' := st.callLog ++ [st.hist]
  match parse_tool_call env.loads resp.content with
  | none =>
    .ok (.done resp.content
      { hist := hist', steps := st.steps ++ [base], tokens := tokens',
        calls := calls', callLog := callLog' })
  | some tc =>
    if !tc.truthy then
      .ok (.done resp.content
        { hist := hist', steps := st.steps ++ [base], tokens := tokens',
          calls := calls', callLog := callLog' })
    else
      match tc with
      | .vdict kvs =>
        match Val.dictGet? kvs "name" with
        | none => .error "KeyError: 'name'"
        | some _ =>
          let tr := run_tool env.runB env.now kvs
          let msg := "工具调用结果:\n" ++ env.dumps (json_serializable tr)
          .ok (.cont
            { hist := hist' ++ [⟨"user", msg⟩],
              steps := st.steps ++
                [{ base with tool_call := some tc, tool_result := some tr }],
              tokens := tokens', calls := calls', callLog := callLog' })
      | _ => .error ("TypeError: '" ++ tc.typeName ++ "' object is not subscriptable")

/-- The bounded iteration `for step in range(max_steps)` with `break`:
returns the final analysis produced by a directive-free step (or `none`
when the budget ran out) together with the loop state. -/
def analyzeLoop (env : Env) (stepIdx : Nat) (st : LoopSt) :
    Nat → Except String (Option String × LoopSt)
  | 0 => .ok (none, st)
  | remaining + 1 =>
    match analyzeStep env stepIdx st with
    | .error e => .error e
    | .ok (.done final st') => .ok (some final, st')
    | .ok (.cont st') => analyzeLoop env (stepIdx + 1) st' remaining

/-- The forced-summary instruction appended when the budget is
exhausted (llm_agent.py 417). -/
def summary_prompt : String :=
  "请基于以上所有信息，提供一个完整的分析总结和投资建议。不要再调用任何工具。"

/-- The structured result returned by `analyze` (llm_agent.py
458-465). -/
structure AnalyzeResult where
  query : String
  steps : List StepData
  final_analysis : Option String
  completed : Bool
  total_tokens_used : Nat
  steps_count : Nat

/-- An `analyze` run's observable outcome: the returned result plus the
agent's transcript and the provider-request ghost log. -/
structure AnalyzeOut where
  result : AnalyzeResult
  hist : List Msg
  calls : Nat
  callLog : List (List Msg)

/-- `LLMStockAgent.analyze` (llm_agent.py 253-465), from the transcript
`hist0` the agent holds when the call starts (`[system prompt]` for a
fresh instance): append the query as a user turn, iterate up to
`max_steps`, and — when the loop exhausted the budget without a final
analysis — append the forced-summary user turn, issue exactly one more
completion (whose text is **not** appended to the transcript), take its
text as the final analysis and record it as one more Step Record with
`is_final_summary = true`.  `completed` is literally
`final_analysis is not None`. -/
def analyze (env : Env) (hist0 : List Msg) (user_query : String) (max_steps : Nat) :
    Except String AnalyzeOut :=
  let st0 : LoopSt :=
    { hist := hist0 ++ [⟨"user", user_query⟩], steps := [], tokens := 0,
      calls := 0, callLog := [] }
  match analyzeLoop env 0 st0 max_steps with
  | .error e => .error e
  | .ok (finalOpt, st) =>
    let (final2, st2) : Option String × LoopSt :=
      match finalOpt with
      | some f => (some f, st)
      | none =>
        let histS := st.hist ++ [⟨"user", summary_prompt⟩]
        let resp := env.llm st.calls
        (some resp.content,
          { hist := histS,
            steps := st.steps ++
              [{ step := st.steps.length + 1, llm_response := resp.content,
                 token_usage := resp.usage, is_final_summary := true }],
            tokens := st.tokens + resp.usage.total_tokens,
            calls := st.calls + 1,
            callLog := st.callLog ++ [histS] })
    .ok
      { result :=
          { query := user_query, steps := st2.steps, final_analysis := final2,
            completed := final2.isSome, total_tokens_used := st2.tokens,
            steps_count := st2.steps.length },
        hist := st2.hist, calls := st2.calls, callLog := st2.callLog }

/-- The transcript a fresh `LLMStockAgent` holds after `__init__`
(llm_agent.py 29): exactly one system-role turn carrying the behavioral
contract.  The prompt text (built from the tool catalogue and the
current date) is irrelevant to the claims and is a parameter. -/
def init_history (system_prompt : String) : List Msg :=
  [⟨"system", system_prompt⟩]

/-! ## The web front end's query substitution (`app.py` 45-64) -/

/-- The fixed default query substituted by the `/api/analyze` route. -/
def default_query : String :=
  "分析一下苹果公司(AAPL)最近三个月的股票表现，包括技术指标和相关新闻"

/-- The route's query selection: `if not user_query.strip():` replace
the query with the fixed default. -/
def api_analyze_query (user_query : String) : String :=
  if (pyStrip user_query.data).isEmpty then default_query else user_query

/-- The `/api/analyze` route body (app.py 45-64): substitute the
default for an empty/whitespace-only query, then run the agent with the
default budget `max_steps = 5`. -/
def api_analyze (env : Env) (hist0 : List Msg) (user_query : String) :
    Except String AnalyzeOut :=
  analyze env hist0 (api_analyze_query user_query) 5

/-! ## Derived predicates, envelope shapes, and concrete demo worlds -/

/-- The `k`-th completion response parses to an actionable directive: a
truthy mapping carrying a `"name"` key (as produced by a well-formed
`<tool_call>` block). -/
def DirectiveAt (env : Env) (k : Nat) : Prop :=
  ∃ kvs, parse_tool_call env.loads (env.llm k).content = some (.vdict kvs) ∧
    (Val.vdict kvs).truthy = true ∧ (Val.dictGet? kvs "name").isSome = true

/-- The entries of a demo directive mapping naming the registered news
tool. -/
def demoKvs : List (Val × Val) :=
  [(.vstr "name", .vstr "get_news"), (.vstr "parameters", .vdict [])]

/-- A model response embedding a well-formed directive for the news
tool. -/
def demoDirectiveText : String :=
  "<tool_call>\x7b\"name\": \"get_news\", \"parameters\": \x7b\x7d\x7d</tool_call>"

/-- Models `json.loads` on the handful of payloads the concrete
witnesses exercise, agreeing with Python's parser on each: the two
directive objects parse to the corresponding mappings, `[]` parses to
the empty list, and everything else fails (the witnesses only ever rely
on the listed payloads). -/
def demoLoads : String → Option Val := fun s =>
  if s = "\x7b\"name\": \"get_news\", \"parameters\": \x7b\x7d\x7d" then
    some (.vdict demoKvs)
  else if s = "\x7b\"name\": \"no_such_tool\", \"parameters\": \x7b\x7d\x7d" then
    some (.vdict [(.vstr "name", .vstr "no_such_tool"),
      (.vstr "parameters", .vdict [])])
  else if s = "[]" then some (.vlist [])
  else none

/-- A concrete external world: the first completion answers with the
news-tool directive, every later one with plain text; every tool `run`
raises a network error; `json.dumps` is rendered with `pyRepr`. -/
def demoEnv : Env :=
  { llm := fun k => if k = 0 then ⟨demoDirectiveText, ⟨10, 20, 30⟩⟩
      else ⟨"最终总结", ⟨7, 8, 15⟩⟩,
    runB := fun _ _ => .error "网络错误",
    loads := demoLoads,
    dumps := Val.pyRepr,
    now := "2026-01-01 09:30:00" }

/-- The five-field error envelope `_run_tool` builds when `tool.run`
raises (llm_agent.py 143-149). -/
def runFailureEnvelope (s : String) (params : Val) (err : String) : Val :=
  sdict [("status", .vstr "error"), ("tool", .vstr s), ("parameters", params),
    ("error", .vstr err), ("data_quality", .vstr "error")]

/-- A directive text naming a tool absent from the registry. -/
def demoUnknownText : String :=
  "<tool_call>\x7b\"name\": \"no_such_tool\", \"parameters\": \x7b\x7d\x7d</tool_call>"

/-- The demo world whose first completion carries the unknown-tool
directive. -/
def demoEnvUnknown : Env :=
  { demoEnv with
    llm := fun k => if k = 0 then ⟨demoUnknownText, ⟨1, 1, 2⟩⟩
      else ⟨"答复", ⟨1, 1, 2⟩⟩ }

/-- The outcome of the 2-record demo run (Scenario D world), for use as
a concrete instance. -/
def demoOut : AnalyzeOut :=
  match analyze demoEnv (init_history "系统提示") "分析" 1 with
  | .ok out => out
  | .error _ => ⟨⟨"", [], none, false, 0, 0⟩, [], 0, []⟩

/-- A world whose model always answers with the empty string (and
whose other collaborators are inert). -/
def envEmptyResp : Env :=
  { llm := fun _ => ⟨"", ⟨0, 0, 0⟩⟩,
    runB := fun _ _ => .error "unused",
    loads := fun _ => none,
    dumps := Val.pyRepr,
    now := "2026-01-01 09:30:00" }

/-- The result of running the web route on a whitespace-only query in
the demo world. -/
def demoOutDefault : AnalyzeOut :=
  match api_analyze demoEnv (init_history "系统提示") "  " with
  | .ok out => out
  | .error _ => ⟨⟨"", [], none, false, 0, 0⟩, [], 0, []⟩

/-- The in-band error dict `HistoricalDataTool.run` returns when the
fetched price history is empty (tools.py 52-53). -/
def historical_data_empty_result : Val :=
  sdict [("error", .vstr "未获取到数据")]

mutual

/-- Transcript safety: the value contains no `pd.Timestamp` anywhere
and every map key, at every depth, is a plain string. -/
def transcriptSafe : Val → Bool
  | .vdict kvs => safeDict kvs
  | .vlist xs => safeList xs
  | .vtimestamp _ => false
  | _ => true

/-- Every element of the list is transcript-safe. -/
def safeList : List Val → Bool
  | [] => true
  | x :: xs => transcriptSafe x && safeList xs

/-- Every key is a string and every value transcript-safe. -/
def safeDict : List (Val × Val) → Bool
  | [] => true
  | (k, v) :: kvs =>
    (match k with | .vstr _ => true | _ => false) &&
      transcriptSafe v && safeDict kvs

end

/-! ## Infrastructure lemmas about the loop -/

/-- The loop state carried by either outcome of one iteration. -/
def StepOut.toSt : StepOut → LoopSt
  | .done _ st => st
  | .cont st => st

/-- Every successful iteration appends exactly one assistant turn
(plus, on the tool path, one user turn) to the transcript, appends
exactly one Step Record, issues exactly one completion request, and
records the submitted transcript in the call log. -/
theorem analyzeStep_evolution (env : Env) (i : Nat) (st : LoopSt) (o : StepOut)
    (h : analyzeStep env i st = .ok o) :
    (∃ ms, o.toSt.hist = st.hist ++ ms ∧
      ∀ m ∈ ms, m.role = "assistant" ∨ m.role = "user") ∧
    (∃ r, o.toSt.steps = st.steps ++ [r]) ∧
    o.toSt.calls = st.calls + 1 ∧
    o.toSt.callLog = st.callLog ++ [st.hist] := by
  simp only [analyzeStep] at h
  split at h
  · cases h
    exact ⟨⟨[⟨"assistant", (env.llm st.calls).content⟩], rfl, by simp⟩,
      ⟨_, rfl⟩, rfl, rfl⟩
  · split at h
    · cases h
      exact ⟨⟨[⟨"assistant", (env.llm st.calls).content⟩], rfl, by simp⟩,
        ⟨_, rfl⟩, rfl, rfl⟩
    · split at h
      · split at h
        · cases h
        · cases h
          rename_i a b kvs hparse htr c vl hget
          exact ⟨⟨[⟨"assistant", (env.llm st.calls).content⟩,
              ⟨"user", "工具调用结果:\n" ++
                env.dumps (json_serializable (run_tool env.runB env.now kvs))⟩],
            by simp [StepOut.toSt], by simp⟩, ⟨_, rfl⟩, rfl, rfl⟩
      · cases h

/-- A directive-free (or falsy-directive) iteration breaks with the
step's generated text as final analysis; the appended Step Record
carries no tool fields and no summary flag. -/
theorem analyzeStep_done (env : Env) (i : Nat) (st : LoopSt) (f : String) (st' : LoopSt)
    (h : analyzeStep env i st = .ok (.done f st')) :
    f = (env.llm st.calls).content ∧
    st'.steps = st.steps ++
      [{ step := i + 1, llm_response := f, token_usage := (env.llm st.calls).usage }] := by
  simp only [analyzeStep] at h
  split at h
  · cases h; exact ⟨rfl, rfl⟩
  · split at h
    · cases h; exact ⟨rfl, rfl⟩
    · split at h
      · split at h
        · cases h
        · cases h
      · cases h

/-- An iteration whose completion parses to a truthy directive mapping
carrying a `"name"` key runs the tool and continues: the envelope is
recorded on the Step Record, and its serialization (prefixed
`工具调用结果:`) is appended as the next user-role turn. -/
theorem analyzeStep_directive (env : Env) (i : Nat) (st : LoopSt)
    (kvs : List (Val × Val))
    (hparse : parse_tool_call env.loads (env.llm st.calls).content = some (.vdict kvs))
    (htruthy : (Val.vdict kvs).truthy = true)
    (hname : (Val.dictGet? kvs "name").isSome = true) :
    analyzeStep env i st = .ok (.cont
      { hist := st.hist ++ [⟨"assistant", (env.llm st.calls).content⟩,
          ⟨"user", "工具调用结果:\n" ++
            env.dumps (json_serializable (run_tool env.runB env.now kvs))⟩],
        steps := st.steps ++
          [{ step := i + 1, llm_response := (env.llm st.calls).content,
             token_usage := (env.llm st.calls).usage,
             tool_call := some (.vdict kvs),
             tool_result := some (run_tool env.runB env.now kvs) }],
        tokens := st.tokens + (env.llm st.calls).usage.total_tokens,
        calls := st.calls + 1,
        callLog := st.callLog ++ [st.hist] }) := by
  obtain ⟨v, hv⟩ := Option.isSome_iff_exists.mp hname
  simp only [analyzeStep, hparse, htruthy, hv]
  simp

/-- The loop only ever extends the transcript (with assistant/user-role
turns), the Step Log, and the call log. -/
theorem analyzeLoop_evolution (env : Env) :
    ∀ (n i : Nat) (st : LoopSt) (fopt : Option String) (st' : LoopSt),
    analyzeLoop env i st n = .ok (fopt, st') →
    (∃ ms, st'.hist = st.hist ++ ms ∧
      ∀ m ∈ ms, m.role = "assistant" ∨ m.role = "user") ∧
    (∃ recs, st'.steps = st.steps ++ recs) ∧
    (∃ ls, st'.callLog = st.callLog ++ ls)
  | 0, i, st, fopt, st', h => by
    simp only [analyzeLoop] at h
    cases h
    exact ⟨⟨[], by simp, by simp⟩, ⟨[], by simp⟩, ⟨[], by simp⟩⟩
  | n + 1, i, st, fopt, st', h => by
    simp only [analyzeLoop] at h
    split at h
    · cases h
    · rename_i f st₁ ho
      cases h
      obtain ⟨⟨ms, hms, hroles⟩, ⟨r, hr⟩, _, hcl⟩ :=
        analyzeStep_evolution env i st _ ho
      exact ⟨⟨ms, by simpa [StepOut.toSt] using hms, hroles⟩,
        ⟨[r], by simpa [StepOut.toSt] using hr⟩,
        ⟨[st.hist], by simpa [StepOut.toSt] using hcl⟩⟩
    · rename_i st₁ ho
      obtain ⟨⟨ms₁, hms₁, hroles₁⟩, ⟨r₁, hr₁⟩, _, hcl₁⟩ :=
        analyzeStep_evolution env i st _ ho
      obtain ⟨⟨ms₂, hms₂, hroles₂⟩, ⟨recs₂, hr₂⟩, ⟨ls₂, hcl₂⟩⟩ :=
        analyzeLoop_evolution env n (i + 1) st₁ fopt st' h
      refine ⟨⟨ms₁ ++ ms₂, ?_, ?_⟩, ⟨[r₁] ++ recs₂, ?_⟩, ⟨[st.hist] ++ ls₂, ?_⟩⟩
      · rw [hms₂]
        simp only [StepOut.toSt] at hms₁
        rw [hms₁, List.append_assoc]
      · intro m hm
        rcases List.mem_append.mp hm with h1 | h2
        · exact hroles₁ m h1
        · exact hroles₂ m h2
      · rw [hr₂]
        simp only [StepOut.toSt] at hr₁
        rw [hr₁, List.append_assoc]
      · rw [hcl₂]
        simp only [StepOut.toSt] at hcl₁
        rw [hcl₁, List.append_assoc]

/-- When the loop breaks with a final analysis, the last Step Record is
the directive-free step that produced it: it carries no tool fields, no
summary flag, and its text is the final analysis. -/
theorem analyzeLoop_done_last (env : Env) :
    ∀ (n i : Nat) (st : LoopSt) (f : String) (st' : LoopSt),
    analyzeLoop env i st n = .ok (some f, st') →
    ∃ r, st'.steps.getLast? = some r ∧ r.tool_result = none ∧
      r.tool_call = none ∧ r.is_final_summary = false ∧ r.llm_response = f
  | 0, i, st, f, st', h => by
    simp only [analyzeLoop] at h
    simp at h
  | n + 1, i, st, f, st', h => by
    simp only [analyzeLoop] at h
    split at h
    · cases h
    · rename_i f₁ st₁ ho
      cases h
      obtain ⟨hf, hsteps⟩ := analyzeStep_done env i st _ _ ho
      exact ⟨_, by rw [hsteps]; exact List.getLast?_concat _, rfl, rfl, rfl, rfl⟩
    · rename_i st₁ ho
      exact analyzeLoop_done_last env n (i + 1) st₁ f st' h

/-- Destructuring a successful `analyze` run into its two exit paths:
either some step broke with a final analysis (DONE), or the budget was
exhausted and the forced-summary path ran (BUDGET_EXHAUSTED).  In both
cases the returned record is spelled out. -/
theorem analyze_ok_cases (env : Env) (hist0 : List Msg) (q : String) (n : Nat)
    (out : AnalyzeOut) (h : analyze env hist0 q n = .ok out) :
    ∃ fopt st,
      analyzeLoop env 0
        ⟨hist0 ++ [⟨"user", q⟩], [], 0, 0, []⟩ n = .ok (fopt, st) ∧
      ((∃ f, fopt = some f ∧ out =
          ⟨⟨q, st.steps, some f, true, st.tokens, st.steps.length⟩,
           st.hist, st.calls, st.callLog⟩) ∨
       (fopt = none ∧ out =
          ⟨⟨q, st.steps ++
              [{ step := st.steps.length + 1,
                 llm_response := (env.llm st.calls).content,
                 token_usage := (env.llm st.calls).usage,
                 is_final_summary := true }],
            some (env.llm st.calls).content, true,
            st.tokens + (env.llm st.calls).usage.total_tokens,
            st.steps.length + 1⟩,
           st.hist ++ [⟨"user", summary_prompt⟩], st.calls + 1,
           st.callLog ++ [st.hist ++ [⟨"user", summary_prompt⟩]]⟩)) := by
  simp only [analyze] at h
  split at h
  · cases h
  · rename_i fopt st hloop
    refine ⟨fopt, st, hloop, ?_⟩
    match fopt with
    | some f =>
      cases h
      exact .inl ⟨f, rfl, rfl⟩
    | none =>
      cases h
      exact .inr ⟨rfl, by simp⟩

/-- If every completion the loop will consume carries an actionable
directive, the loop runs its full budget, never breaks, and returns no
final analysis: one completion and one Step Record per budgeted step. -/
theorem analyzeLoop_all_directives (env : Env) :
    ∀ (n i : Nat) (st : LoopSt),
    (∀ j, j < n → DirectiveAt env (st.calls + j)) →
    ∃ st', analyzeLoop env i st n = .ok (none, st') ∧
      st'.calls = st.calls + n ∧ st'.steps.length = st.steps.length + n
  | 0, i, st, _ => ⟨st, by simp [analyzeLoop], rfl, rfl⟩
  | n + 1, i, st, hdir => by
    obtain ⟨kvs, hparse, htruthy, hname⟩ := hdir 0 (Nat.succ_pos n)
    rw [Nat.add_zero] at hparse
    have hstep := analyzeStep_directive env i st kvs hparse htruthy hname
    have hdir' : ∀ j, j < n → DirectiveAt env (st.calls + 1 + j) := by
      intro j hj
      simpa [Nat.add_assoc, Nat.add_comm 1 j] using
        hdir (j + 1) (Nat.succ_lt_succ hj)
    obtain ⟨st', hloop, hcalls, hlen⟩ :=
      analyzeLoop_all_directives env n (i + 1)
        { hist := st.hist ++ [⟨"assistant", (env.llm st.calls).content⟩,
            ⟨"user", "工具调用结果:\n" ++
              env.dumps (json_serializable (run_tool env.runB env.now kvs))⟩],
          steps := st.steps ++
            [{ step := i + 1, llm_response := (env.llm st.calls).content,
               token_usage := (env.llm st.calls).usage,
               tool_call := some (.vdict kvs),
               tool_result := some (run_tool env.runB env.now kvs) }],
          tokens := st.tokens + (env.llm st.calls).usage.total_tokens,
          calls := st.calls + 1,
          callLog := st.callLog ++ [st.hist] } hdir'
    refine ⟨st', ?_, ?_, ?_⟩
    · simp only [analyzeLoop, hstep]
      exact hloop
    · simpa [Nat.add_assoc, Nat.add_comm 1 n] using hcalls
    · simpa [Nat.add_assoc, Nat.add_comm 1 n] using hlen

/-- C1: if each of the `max_steps` completions contains a parsed
(actionable) directive, the loop exhausts its budget, appends one more
user-role turn carrying the forced-summary instruction (which ends the
transcript, since the summary response itself is never appended), issues
exactly one more completion — `max_steps + 1` in total — whose text
becomes the final analysis; the Step Log has `max_steps + 1` records,
the last being the summary record with `is_final_summary = true`, and
`completed = true`.  With `max_steps = 1` and a directive in the first
response this yields exactly 2 records. -/
theorem budget_exhausted_forced_summary (env : Env) (hist0 : List Msg)
    (q : String) (n : Nat) (hdir : ∀ j, j < n → DirectiveAt env j) :
    ∃ out, analyze env hist0 q n = .ok out ∧
      out.result.steps.length = n + 1 ∧
      out.calls = n + 1 ∧
      out.result.steps.getLast? = some
        { step := n + 1, llm_response := (env.llm n).content,
          token_usage := (env.llm n).usage, is_final_summary := true } ∧
      out.result.final_analysis = some (env.llm n).content ∧
      out.result.completed = true ∧
      out.hist.getLast? = some ⟨"user", summary_prompt⟩ := by
  obtain ⟨st', hloop, hcalls, hlen⟩ :=
    analyzeLoop_all_directives env n 0
      ⟨hist0 ++ [⟨"user", q⟩], [], 0, 0, []⟩ (by simpa using hdir)
  simp only [analyze, hloop]
  refine ⟨_, rfl, ?_, ?_, ?_, ?_, ?_, ?_⟩
  · simpa using hlen
  · simpa using hcalls
  · simp only [hcalls, hlen]
    simp [List.getLast?_concat]
  · simp [hcalls]
  · rfl
  · exact List.getLast?_concat _

/-- Witness for C1: Scenario D concretely — `max_steps = 1`, a
directive in the first response: 2 Step Records, 2 completions, summary
record flagged, `completed = true`, transcript ending in the
forced-summary user turn. -/
theorem budget_exhausted_forced_summary_witness :
    ∃ out, analyze demoEnv (init_history "系统提示") "分析" 1 = .ok out ∧
      out.result.steps.length = 2 ∧
      out.calls = 2 ∧
      out.result.steps.getLast? = some
        { step := 2, llm_response := "最终总结", token_usage := ⟨7, 8, 15⟩,
          is_final_summary := true } ∧
      out.result.final_analysis = some "最终总结" ∧
      out.result.completed = true ∧
      out.hist.getLast? = some ⟨"user", summary_prompt⟩ := by
  have h := budget_exhausted_forced_summary demoEnv (init_history "系统提示")
    "分析" 1 (by
      intro j hj
      have hj0 : j = 0 := Nat.lt_one_iff.mp hj
      subst hj0
      exact ⟨demoKvs, rfl, rfl, rfl⟩)
  simpa [demoEnv] using h

/-- Counterexample for C2: on `<tool_call>[]</tool_call>` the payload
`[]` parses as valid JSON, so the parser returns it non-null — yet it is
not a mapping at all, let alone one with keys `name` and `parameters`.
(`json.loads("[]")` is indeed `[]` in Python.) -/
theorem parse_tool_call_non_mapping :
    parse_tool_call demoLoads "<tool_call>[]</tool_call>" = some (.vlist []) ∧
    (Val.vlist []).isDict = false := ⟨rfl, rfl⟩

/-- C2 (amended): the parser returns null when either marker is absent,
and otherwise returns exactly what `json.loads` yields on the
whitespace-trimmed slice between the first occurrence of each marker
(null on a parse failure, and the parsed value as-is on success — with
no validation that it is a mapping or has `name`/`parameters` keys).
It is a total function: it never raises and never retries. -/
theorem parse_tool_call_spec (loads : String → Option Val) (response : String) :
    ((strFind start_tag response.data = none ∨
        strFind end_tag response.data = none) →
      parse_tool_call loads response = none) ∧
    (∀ s e, strFind start_tag response.data = some s →
      strFind end_tag response.data = some e →
      parse_tool_call loads response =
        loads (String.mk (pyStrip
          ((response.data.drop (s + start_tag.length)).take
            (e - (s + start_tag.length)))))) := by
  constructor
  · intro h
    simp only [parse_tool_call]
    split
    · rename_i hs he
      rcases h with h | h <;> simp_all
    · rfl
  · intro s e hs he
    simp only [parse_tool_call]
    split
    · rename_i hs' he'
      rw [hs] at hs'
      rw [he] at he'
      cases hs'
      cases he'
      rfl
    · rename_i hne
      exact absurd (hne s e hs he) not_false

/-- Witness for C2 (amended): on `<tool_call>[]</tool_call>` the
markers sit at indices 0 and 13, and the parser returns exactly what
`json.loads` yields on the trimmed slice between them. -/
theorem parse_tool_call_spec_witness :
    parse_tool_call demoLoads "<tool_call>[]</tool_call>" =
      demoLoads (String.mk (pyStrip
        ((("<tool_call>[]</tool_call>".data).drop (0 + start_tag.length)).take
          (13 - (0 + start_tag.length))))) :=
  (parse_tool_call_spec demoLoads "<tool_call>[]</tool_call>").2 0 13 rfl rfl

/-- Every registered tool name is a non-empty string. -/
theorem registryNames_not_empty : ∀ s ∈ registryNames, s.isEmpty = false := by
  decide

/-- A successful string-keyed lookup needs a non-empty dict. -/
theorem dictGet?_ne_nil {kvs : List (Val × Val)} {key : String} {v : Val}
    (h : Val.dictGet? kvs key = some v) : kvs ≠ [] := by
  intro hnil
  subst hnil
  simp [Val.dictGet?] at h

/-- A dict that answers a lookup is truthy. -/
theorem truthy_of_dictGet? {kvs : List (Val × Val)} {key : String} {v : Val}
    (h : Val.dictGet? kvs key = some v) : (Val.vdict kvs).truthy = true := by
  have := dictGet?_ne_nil h
  cases kvs with
  | nil => exact absurd rfl this
  | cons p tl => simp [Val.truthy]

/-- When a registered tool's `run` raises, `_run_tool` returns the
five-field error envelope rather than propagating. -/
theorem run_tool_failure (runB : RunBehavior) (now : String)
    (kvs : List (Val × Val)) (s : String) (params : Val) (err : String)
    (hn : Val.dictGet? kvs "name" = some (.vstr s))
    (hp : Val.dictGet? kvs "parameters" = some params)
    (hreg : s ∈ registryNames)
    (herr : runB s params = .error err) :
    run_tool runB now kvs = runFailureEnvelope s params err := by
  have hne : s.isEmpty = false := registryNames_not_empty s hreg
  simp only [run_tool, hn, hp, Option.getD_some, Val.truthy, hne,
    Bool.not_false, Bool.not_true, if_false]
  simp [get_tool, if_pos hreg, herr, runFailureEnvelope]

/-- C3: a raised tool `run` never propagates: `_run_tool` returns the
error envelope (`status = error`, `data_quality = error`, carrying the
exception message, the tool name and the original parameters); the
iteration records that envelope on the Step Record and appends its
serialization as the next user-role turn and continues; and in any
completed `analyze` run a step carrying a tool result is never the last
one — a further completion request always follows it. -/
theorem tool_failure_recovered :
    (∀ (runB : RunBehavior) (now : String) (kvs : List (Val × Val))
        (s : String) (params : Val) (err : String),
      Val.dictGet? kvs "name" = some (.vstr s) →
      Val.dictGet? kvs "parameters" = some params →
      s ∈ registryNames →
      runB s params = .error err →
      run_tool runB now kvs = runFailureEnvelope s params err) ∧
    (∀ (env : Env) (i : Nat) (st : LoopSt) (kvs : List (Val × Val))
        (s : String) (params : Val) (err : String),
      parse_tool_call env.loads (env.llm st.calls).content = some (.vdict kvs) →
      Val.dictGet? kvs "name" = some (.vstr s) →
      Val.dictGet? kvs "parameters" = some params →
      s ∈ registryNames →
      env.runB s params = .error err →
      ∃ st', analyzeStep env i st = .ok (.cont st') ∧
        st'.steps = st.steps ++
          [{ step := i + 1, llm_response := (env.llm st.calls).content,
             token_usage := (env.llm st.calls).usage,
             tool_call := some (.vdict kvs),
             tool_result := some (runFailureEnvelope s params err) }] ∧
        st'.hist = st.hist ++ [⟨"assistant", (env.llm st.calls).content⟩,
          ⟨"user", "工具调用结果:\n" ++
            env.dumps (json_serializable (runFailureEnvelope s params err))⟩]) ∧
    (∀ (env : Env) (hist0 : List Msg) (q : String) (n : Nat) (out : AnalyzeOut),
      analyze env hist0 q n = .ok out →
      ∀ (i : Nat) (hi : i < out.result.steps.length),
        (out.result.steps.get ⟨i, hi⟩).tool_result.isSome = true →
        i + 1 < out.result.steps.length) := by
  have hstep : ∀ (env : Env) (i : Nat) (st : LoopSt) (kvs : List (Val × Val))
      (s : String) (params : Val) (err : String),
      parse_tool_call env.loads (env.llm st.calls).content = some (.vdict kvs) →
      Val.dictGet? kvs "name" = some (.vstr s) →
      Val.dictGet? kvs "parameters" = some params →
      s ∈ registryNames →
      env.runB s params = .error err →
      ∃ st', analyzeStep env i st = .ok (.cont st') ∧
        st'.steps = st.steps ++
          [{ step := i + 1, llm_response := (env.llm st.calls).content,
             token_usage := (env.llm st.calls).usage,
             tool_call := some (.vdict kvs),
             tool_result := some (runFailureEnvelope s params err) }] ∧
        st'.hist = st.hist ++ [⟨"assistant", (env.llm st.calls).content⟩,
          ⟨"user", "工具调用结果:\n" ++
            env.dumps (json_serializable (runFailureEnvelope s params err))⟩] := by
    intro env i st kvs s params err hparse hn hp hreg herr
    have henv := run_tool_failure env.runB env.now kvs s params err hn hp hreg herr
    have h := analyzeStep_directive env i st kvs hparse (truthy_of_dictGet? hn)
      (by rw [hn]; rfl)
    rw [henv] at h
    exact ⟨_, h, rfl, by simp⟩
  refine ⟨run_tool_failure, hstep, ?_⟩
  intro env hist0 q n out h i hi hsome
  by_contra hlast
  have hil : i = out.result.steps.length - 1 := by omega
  obtain ⟨fopt, st, hloop, hcases⟩ := analyze_ok_cases env hist0 q n out h
  have htf : ∃ r, out.result.steps.getLast? = some r ∧ r.tool_result = none := by
    rcases hcases with ⟨f, hf, hout⟩ | ⟨hf, hout⟩
    · subst hf
      obtain ⟨r, hr, hrt, _⟩ := analyzeLoop_done_last env n 0 _ f st hloop
      exact ⟨r, by rw [hout]; exact hr, hrt⟩
    · exact ⟨_, by rw [hout]; exact List.getLast?_concat _, rfl⟩
  obtain ⟨r, hr, hrt⟩ := htf
  rw [List.getLast?_eq_getElem?] at hr
  rw [List.getElem?_eq_getElem (by omega)] at hr
  have : out.result.steps.get ⟨i, hi⟩ = r := by
    cases hr
    simp [hil, List.get_eq_getElem]
  rw [this, hrt] at hsome
  simp at hsome

/-- Witness for C3: in the demo world the news tool's `run` raises
`网络错误`; the first iteration records the five-field error envelope and
appends its serialization as a user turn, continuing the loop. -/
theorem tool_failure_recovered_witness :
    ∃ st', analyzeStep demoEnv 0
        ⟨[⟨"system", "系统提示"⟩, ⟨"user", "分析"⟩], [], 0, 0, []⟩ = .ok (.cont st') ∧
      st'.steps = [{ step := 1, llm_response := demoDirectiveText,
                     token_usage := ⟨10, 20, 30⟩,
                     tool_call := some (.vdict demoKvs),
                     tool_result := some
                       (runFailureEnvelope "get_news" (.vdict []) "网络错误") }] ∧
      st'.hist = [⟨"system", "系统提示"⟩, ⟨"user", "分析"⟩,
        ⟨"assistant", demoDirectiveText⟩,
        ⟨"user", "工具调用结果:\n" ++
          demoEnv.dumps (json_serializable
            (runFailureEnvelope "get_news" (.vdict []) "网络错误"))⟩] := by
  obtain ⟨st', h1, h2, h3⟩ := tool_failure_recovered.2.1 demoEnv 0
    ⟨[⟨"system", "系统提示"⟩, ⟨"user", "分析"⟩], [], 0, 0, []⟩ demoKvs
    "get_news" (.vdict []) "网络错误" rfl rfl rfl (by decide) rfl
  exact ⟨st', by simpa using h1, by simpa using h2, by simpa using h3⟩

/-- Counterexample for C4: for the unknown tool `no_such_tool`,
`_run_tool` returns the bare one-field dict
`{"error": "未知工具: no_such_tool"}` — it has **no** `status` key at
all, so it is not an envelope with `status = error` as the claim
states. -/
theorem unknown_tool_envelope_lacks_status :
    run_tool demoEnv.runB demoEnv.now
      [(.vstr "name", .vstr "no_such_tool"), (.vstr "parameters", .vdict [])] =
      .vdict [(.vstr "error", .vstr "未知工具: no_such_tool")] ∧
    Val.dictGet? [((.vstr "error" : Val), (.vstr "未知工具: no_such_tool" : Val))]
      "status" = none ∧
    "no_such_tool" ∉ registryNames := ⟨rfl, rfl, by decide⟩

/-- C4 (amended): for a directive naming a tool that is not a registry
key, the lookup returns not-found without raising, and `_run_tool`
returns the bare `{"error": "未知工具: <name>"}` dict (carrying no
`status` field — the loop's status read then defaults to `"unknown"`);
the iteration feeds this envelope back into the transcript as a normal
user-role turn and continues rather than aborting `analyze`. -/
theorem unknown_tool_recovered :
    (∀ s : String, s ∉ registryNames → get_tool (.vstr s) = none) ∧
    (∀ (runB : RunBehavior) (now : String) (kvs : List (Val × Val)) (s : String),
      Val.dictGet? kvs "name" = some (.vstr s) →
      s.isEmpty = false →
      s ∉ registryNames →
      run_tool runB now kvs = sdict [("error", .vstr ("未知工具: " ++ s))]) ∧
    (∀ (env : Env) (i : Nat) (st : LoopSt) (kvs : List (Val × Val)) (s : String),
      parse_tool_call env.loads (env.llm st.calls).content = some (.vdict kvs) →
      Val.dictGet? kvs "name" = some (.vstr s) →
      s.isEmpty = false →
      s ∉ registryNames →
      ∃ st', analyzeStep env i st = .ok (.cont st') ∧
        st'.steps = st.steps ++
          [{ step := i + 1, llm_response := (env.llm st.calls).content,
             token_usage := (env.llm st.calls).usage,
             tool_call := some (.vdict kvs),
             tool_result := some (sdict [("error", .vstr ("未知工具: " ++ s))]) }] ∧
        st'.hist = st.hist ++ [⟨"assistant", (env.llm st.calls).content⟩,
          ⟨"user", "工具调用结果:\n" ++ env.dumps (json_serializable
            (sdict [("error", .vstr ("未知工具: " ++ s))]))⟩]) := by
  have hrun : ∀ (runB : RunBehavior) (now : String) (kvs : List (Val × Val))
      (s : String),
      Val.dictGet? kvs "name" = some (.vstr s) →
      s.isEmpty = false →
      s ∉ registryNames →
      run_tool runB now kvs = sdict [("error", .vstr ("未知工具: " ++ s))] := by
    intro runB now kvs s hn hemp hreg
    simp only [run_tool, hn, Option.getD_some, Val.truthy, hemp,
      Bool.not_false, Bool.not_true, if_false]
    simp [get_tool, hreg, Val.pyStr]
  refine ⟨fun s hs => by simp [get_tool, hs], hrun, ?_⟩
  intro env i st kvs s hparse hn hemp hreg
  have h := analyzeStep_directive env i st kvs hparse (truthy_of_dictGet? hn)
    (by rw [hn]; rfl)
  rw [hrun env.runB env.now kvs s hn hemp hreg] at h
  exact ⟨_, h, rfl, by simp⟩

/-- Witness for C4 (amended): the first iteration of the demo
unknown-tool world records the bare error dict and appends it as a user
turn, continuing the loop. -/
theorem unknown_tool_recovered_witness :
    ∃ st', analyzeStep demoEnvUnknown 0
        ⟨[⟨"system", "系统提示"⟩, ⟨"user", "分析"⟩], [], 0, 0, []⟩ = .ok (.cont st') ∧
      st'.steps = [{ step := 1, llm_response := demoUnknownText,
                     token_usage := ⟨1, 1, 2⟩,
                     tool_call := some (.vdict [(.vstr "name", .vstr "no_such_tool"),
                       (.vstr "parameters", .vdict [])]),
                     tool_result := some
                       (sdict [("error", .vstr "未知工具: no_such_tool")]) }] ∧
      st'.hist = [⟨"system", "系统提示"⟩, ⟨"user", "分析"⟩,
        ⟨"assistant", demoUnknownText⟩,
        ⟨"user", "工具调用结果:\n" ++ demoEnvUnknown.dumps (json_serializable
          (sdict [("error", .vstr "未知工具: no_such_tool")]))⟩] := by
  obtain ⟨st', h1, h2, h3⟩ := unknown_tool_recovered.2.2 demoEnvUnknown 0
    ⟨[⟨"system", "系统提示"⟩, ⟨"user", "分析"⟩], [], 0, 0, []⟩
    [(.vstr "name", .vstr "no_such_tool"), (.vstr "parameters", .vdict [])]
    "no_such_tool" rfl rfl rfl (by decide)
  exact ⟨st', by simpa using h1, by simpa using h2, by simpa using h3⟩

/-- An `analyze` run extends the incoming transcript by the query turn
followed only by user-role and assistant-role turns. -/
theorem analyze_hist_append (env : Env) (hist0 : List Msg) (q : String)
    (n : Nat) (out : AnalyzeOut) (h : analyze env hist0 q n = .ok out) :
    ∃ ms, out.hist = hist0 ++ ⟨"user", q⟩ :: ms ∧
      ∀ m ∈ ms, m.role = "user" ∨ m.role = "assistant" := by
  obtain ⟨fopt, st, hloop, hcases⟩ := analyze_ok_cases env hist0 q n out h
  obtain ⟨⟨ms, hms, hroles⟩, _, _⟩ :=
    analyzeLoop_evolution env n 0 _ fopt st hloop
  rcases hcases with ⟨f, hf, hout⟩ | ⟨hf, hout⟩
  · refine ⟨ms, ?_, fun m hm => (hroles m hm).symm⟩
    rw [hout]
    simpa [List.append_assoc] using hms
  · refine ⟨ms ++ [⟨"user", summary_prompt⟩], ?_, ?_⟩
    · rw [hout]
      simp only [hms]
      simp [List.append_assoc]
    · intro m hm
      rcases List.mem_append.mp hm with h1 | h2
      · exact (hroles m h1).symm
      · simp only [List.mem_singleton] at h2
        subst h2
        exact .inl rfl

/-- C5: within one `analyze` call the transcript is append-only — every
mutation appends a user-role or assistant-role turn (so its length is
monotonically non-decreasing across the loop) — and, starting from the
`__init__` transcript, turn 0 has role `system` and no later turn
does. -/
theorem transcript_invariants :
    (∀ (env : Env) (i : Nat) (st : LoopSt) (o : StepOut),
      analyzeStep env i st = .ok o →
      ∃ ms, o.toSt.hist = st.hist ++ ms ∧
        ∀ m ∈ ms, m.role = "user" ∨ m.role = "assistant") ∧
    (∀ (env : Env) (hist0 : List Msg) (q : String) (n : Nat) (out : AnalyzeOut),
      analyze env hist0 q n = .ok out →
      ∃ ms, out.hist = hist0 ++ ⟨"user", q⟩ :: ms ∧
        ∀ m ∈ ms, m.role = "user" ∨ m.role = "assistant") ∧
    (∀ (env : Env) (sp q : String) (n : Nat) (out : AnalyzeOut),
      analyze env (init_history sp) q n = .ok out →
      out.hist.head? = some ⟨"system", sp⟩ ∧
      ∀ (i : Nat) (hi : i < out.hist.length), 0 < i →
        (out.hist.get ⟨i, hi⟩).role ≠ "system") := by
  have hana := analyze_hist_append
  refine ⟨?_, hana, ?_⟩
  · intro env i st o h
    obtain ⟨⟨ms, hms, hroles⟩, _, _, _⟩ := analyzeStep_evolution env i st o h
    exact ⟨ms, hms, fun m hm => (hroles m hm).symm⟩
  · intro env sp q n out h
    obtain ⟨ms, hms, hroles⟩ := hana env (init_history sp) q n out h
    rw [hms]
    refine ⟨rfl, ?_⟩
    intro i hi hpos
    obtain ⟨j, rfl⟩ : ∃ j, i = j + 1 := ⟨i - 1, by omega⟩
    have hmem : (init_history sp ++ ⟨"user", q⟩ :: ms).get ⟨j + 1, hi⟩ ∈
        (⟨"user", q⟩ :: ms : List Msg) := by
      have : (init_history sp ++ ⟨"user", q⟩ :: ms).get ⟨j + 1, hi⟩ =
          (⟨"user", q⟩ :: ms : List Msg).get ⟨j, by
            simpa [init_history] using hi⟩ := by
        simp [init_history, List.get_eq_getElem]
      rw [this]
      exact List.get_mem _ _ _
    rcases List.mem_cons.mp hmem with h1 | h2
    · rw [h1]
      simp
    · rcases hroles _ h2 with h3 | h3 <;> rw [h3] <;> simp

/-- Witness for C5: the Scenario D demo run's transcript starts with
the system turn and never contains another system-role turn. -/
theorem transcript_invariants_witness :
    demoOut.hist.head? = some ⟨"system", "系统提示"⟩ ∧
    ∀ (i : Nat) (hi : i < demoOut.hist.length), 0 < i →
      (demoOut.hist.get ⟨i, hi⟩).role ≠ "system" :=
  transcript_invariants.2.2 demoEnv "系统提示" "分析" 1 demoOut rfl

mutual

/-- The normalized value is transcript-safe: no timestamp survives and
every map key has been coerced to a string. -/
theorem transcriptSafe_json_serializable :
    ∀ v, transcriptSafe (json_serializable v) = true
  | .vnull => rfl
  | .vbool _ => rfl
  | .vint _ => rfl
  | .vstr _ => rfl
  | .vtimestamp _ => rfl
  | .vlist xs => by
    simp only [json_serializable, transcriptSafe]
    exact safeList_jsonSerializableList xs
  | .vdict kvs => by
    simp only [json_serializable, transcriptSafe]
    exact safeDict_jsonSerializableDict kvs

/-- List version of `transcriptSafe_json_serializable`. -/
theorem safeList_jsonSerializableList :
    ∀ xs, safeList (jsonSerializableList xs) = true
  | [] => rfl
  | x :: xs => by
    simp only [jsonSerializableList, safeList, Bool.and_eq_true]
    exact ⟨transcriptSafe_json_serializable x, safeList_jsonSerializableList xs⟩

/-- Dict version of `transcriptSafe_json_serializable`. -/
theorem safeDict_jsonSerializableDict :
    ∀ kvs, safeDict (jsonSerializableDict kvs) = true
  | [] => rfl
  | (k, v) :: kvs => by
    simp only [jsonSerializableDict, safeDict, Bool.and_eq_true]
    exact ⟨⟨trivial, transcriptSafe_json_serializable v⟩,
      safeDict_jsonSerializableDict kvs⟩

end

/-- Lists are normalized elementwise, in order. -/
theorem jsonSerializableList_map :
    ∀ xs, jsonSerializableList xs = xs.map json_serializable
  | [] => rfl
  | x :: xs => by
    simp only [jsonSerializableList, List.map_cons, List.cons.injEq]
    exact ⟨trivial, jsonSerializableList_map xs⟩

/-- Dicts are normalized entrywise, in order, coercing each key with
`str(k)`. -/
theorem jsonSerializableDict_map :
    ∀ kvs, jsonSerializableDict kvs =
      kvs.map fun p => (.vstr p.1.pyStr, json_serializable p.2)
  | [] => rfl
  | (k, v) :: kvs => by
    simp only [jsonSerializableDict, List.map_cons, List.cons.injEq]
    exact ⟨trivial, jsonSerializableDict_map kvs⟩

/-- C6: the transcript-safety normalization leaves no non-string map
key (each key is coerced with `str`) and no timestamp value (each
becomes its plain string), maps lists elementwise preserving order and
length, maps dicts entrywise preserving order, and leaves every other
scalar unchanged — hence the envelope serialized into the transcript
turn contains only string-keyed maps. -/
theorem transcript_safety_normalization :
    (∀ v, transcriptSafe (json_serializable v) = true) ∧
    (∀ xs, json_serializable (.vlist xs) = .vlist (xs.map json_serializable)) ∧
    (∀ kvs, json_serializable (.vdict kvs) =
      .vdict (kvs.map fun p => (.vstr p.1.pyStr, json_serializable p.2))) ∧
    json_serializable .vnull = .vnull ∧
    (∀ b, json_serializable (.vbool b) = .vbool b) ∧
    (∀ n, json_serializable (.vint n) = .vint n) ∧
    (∀ s, json_serializable (.vstr s) = .vstr s) ∧
    (∀ s, json_serializable (.vtimestamp s) = .vstr s) :=
  ⟨transcriptSafe_json_serializable,
   fun xs => by rw [json_serializable, jsonSerializableList_map],
   fun kvs => by rw [json_serializable, jsonSerializableDict_map],
   rfl, fun _ => rfl, fun _ => rfl, fun _ => rfl, fun _ => rfl⟩

/-- Counterexample for C7: when the first completion is the empty
string (which contains no markers), the loop breaks with
`final_analysis = ""` — empty — and yet `completed = true`, because the
source computes `completed` as `final_analysis is not None`, not as
non-emptiness. -/
theorem completed_despite_empty_final :
    ∃ out, analyze envEmptyResp (init_history "SP") "q" 5 = .ok out ∧
      out.result.completed = true ∧
      out.result.final_analysis = some "" ∧
      "".isEmpty = true :=
  ⟨_, rfl, rfl, rfl, rfl⟩

/-- C7 (amended): `completed` equals `final_analysis is not None`; and
since the budget-exhausted path always installs the forced summary's
text, every normal return of `analyze` has a non-`None` final analysis,
so `completed` is `true` — even when the final text is empty. -/
theorem completed_iff_final_not_none (env : Env) (hist0 : List Msg)
    (q : String) (n : Nat) (out : AnalyzeOut)
    (h : analyze env hist0 q n = .ok out) :
    out.result.completed = out.result.final_analysis.isSome ∧
    out.result.completed = true ∧
    out.result.final_analysis.isSome = true := by
  obtain ⟨fopt, st, hloop, hcases⟩ := analyze_ok_cases env hist0 q n out h
  rcases hcases with ⟨f, hf, hout⟩ | ⟨hf, hout⟩ <;> subst hout <;> simp

/-- Witness for C7 (amended): the Scenario D demo run returns
`completed = true` with a non-`None` final analysis. -/
theorem completed_iff_final_not_none_witness :
    demoOut.result.completed = demoOut.result.final_analysis.isSome ∧
    demoOut.result.completed = true ∧
    demoOut.result.final_analysis.isSome = true :=
  completed_iff_final_not_none demoEnv (init_history "系统提示") "分析" 1
    demoOut rfl

/-- C8 (code bug): the news tool is registered as `"get_news"`
(tools.py 209, 619), but the validator's empty-news heuristic tests
`tool_name == "get_stock_news"` (llm_agent.py 205) — a name that is
never registered.  Hence a successful run of the registered news tool
returning 0 articles keeps `data_quality = "good"` with no downgrade
note (first equation), while the same result under the never-occurring
name `"get_stock_news"` would be downgraded to `"poor"` with the
explanatory note (second equation): the heuristic the spec describes
exists but is unreachable. -/
theorem news_empty_downgrade_unreachable (now : String) (params : Val) :
    ("get_news" ∈ registryNames ∧ "get_stock_news" ∉ registryNames) ∧
    validate_tool_result now "get_news" (.vlist []) params =
      mkEnvelope "get_news" params (.vlist []) "good"
        ["数据获取时间: " ++ now] (some now) ∧
    validate_tool_result now "get_stock_news" (.vlist []) params =
      mkEnvelope "get_stock_news" params (.vlist []) "poor"
        ["未找到相关新闻", "数据获取时间: " ++ now] (some now) :=
  ⟨⟨by decide, by decide⟩, rfl, rfl⟩

/-- Stripping a whitespace-only string yields the empty string. -/
theorem pyStrip_eq_nil {l : List Char} (h : ∀ c ∈ l, isPySpace c = true) :
    pyStrip l = [] := by
  have h1 : l.dropWhile isPySpace = [] := List.dropWhile_eq_nil_iff.mpr h
  rw [pyStrip, h1]
  simp

/-- With at least one budgeted step, the first completion request of
the loop is issued over the loop's starting transcript. -/
theorem analyzeLoop_first_call (env : Env) (n i : Nat) (st : LoopSt)
    (fopt : Option String) (st' : LoopSt) (hc : st.callLog = [])
    (h : analyzeLoop env i st (n + 1) = .ok (fopt, st')) :
    st'.callLog.head? = some st.hist := by
  simp only [analyzeLoop] at h
  split at h
  · cases h
  · rename_i f st₁ ho
    cases h
    obtain ⟨_, _, _, hcl⟩ := analyzeStep_evolution env i st _ ho
    simp only [StepOut.toSt] at hcl
    rw [hcl, hc]
    simp
  · rename_i st₁ ho
    obtain ⟨_, _, _, hcl₁⟩ := analyzeStep_evolution env i st _ ho
    obtain ⟨_, _, ⟨ls, hcl₂⟩⟩ := analyzeLoop_evolution env n (i + 1) st₁ fopt st' h
    simp only [StepOut.toSt] at hcl₁
    rw [hcl₂, hcl₁, hc]
    simp

/-- C9: for an empty or whitespace-only query, the `/api/analyze` route
substitutes the fixed default query before the agent loop runs, so the
first completion request is issued over a transcript whose appended
user-role turn carries the default — not the empty text — and the
transcript's first appended user turn is the default query. -/
theorem empty_query_default_substitution :
    (∀ q : String, (∀ c ∈ q.data, isPySpace c = true) →
      api_analyze_query q = default_query) ∧
    (∀ (env : Env) (hist0 : List Msg) (q : String) (out : AnalyzeOut),
      (∀ c ∈ q.data, isPySpace c = true) →
      api_analyze env hist0 q = .ok out →
      out.callLog.head? = some (hist0 ++ [⟨"user", default_query⟩]) ∧
      ∃ ms, out.hist = hist0 ++ ⟨"user", default_query⟩ :: ms) := by
  have hq : ∀ q : String, (∀ c ∈ q.data, isPySpace c = true) →
      api_analyze_query q = default_query := by
    intro q h
    have hnil : pyStrip q.data = [] := pyStrip_eq_nil h
    simp [api_analyze_query, hnil]
  refine ⟨hq, ?_⟩
  intro env hist0 q out hws h
  rw [api_analyze, hq q hws] at h
  constructor
  · obtain ⟨fopt, st, hloop, hcases⟩ :=
      analyze_ok_cases env hist0 default_query 5 out h
    have hfirst : st.callLog.head? = some (hist0 ++ [⟨"user", default_query⟩]) :=
      analyzeLoop_first_call env 4 0 _ fopt st rfl hloop
    rcases hcases with ⟨f, hf, hout⟩ | ⟨hf, hout⟩
    · rw [hout]
      exact hfirst
    · rw [hout]
      cases hcl : st.callLog with
      | nil => rw [hcl] at hfirst; simp at hfirst
      | cons a t =>
        rw [hcl] at hfirst
        simpa using hfirst
  · obtain ⟨ms, hms, _⟩ := analyze_hist_append env hist0 default_query 5 out h
    exact ⟨ms, hms⟩

/-- Witness for C9: in the demo world, the route called with the
whitespace query `"  "` issues its first completion over the transcript
ending in the default query. -/
theorem empty_query_default_substitution_witness :
    demoOutDefault.callLog.head? =
      some (init_history "系统提示" ++ [⟨"user", default_query⟩]) ∧
    ∃ ms, demoOutDefault.hist =
      init_history "系统提示" ++ ⟨"user", default_query⟩ :: ms :=
  empty_query_default_substitution.2 demoEnv (init_history "系统提示") "  "
    demoOutDefault (by decide) rfl

/-- C10: a tool `run` that returns normally with a dict carrying an
`"error"` key yields an envelope with `status = success` but
`data_quality = error`, a single note carrying the error text, and no
further tool-specific checks (note the absent `data_timestamp`): the
`status` field reflects only whether `run` raised, not whether the tool
reported an error in-band.  The second conjunct evaluates the
historical-data tool's empty-history result as the concrete example. -/
theorem inband_error_downgrades_quality :
    (∀ (now tool_name : String) (params : Val) (kvs : List (Val × Val))
        (errVal : Val),
      Val.dictGet? kvs "error" = some errVal →
      validate_tool_result now tool_name (.vdict kvs) params =
        mkEnvelope tool_name params (.vdict kvs) "error"
          ["工具返回错误: " ++ errVal.pyStr] none) ∧
    (∀ (now : String) (params : Val),
      validate_tool_result now "get_historical_data"
          historical_data_empty_result params =
        mkEnvelope "get_historical_data" params historical_data_empty_result
          "error" ["工具返回错误: 未获取到数据"] none) := by
  constructor
  · intro now tool_name params kvs errVal herr
    simp [validate_tool_result, Val.isDict, herr]
  · intro now params
    rfl

/-- Witness for C10: the empty-history result under its tool's name
produces exactly the early-return error-quality envelope. -/
theorem inband_error_downgrades_quality_witness :
    validate_tool_result "2026-01-01 09:30:00" "get_historical_data"
      historical_data_empty_result (.vdict []) =
      mkEnvelope "get_historical_data" (.vdict []) historical_data_empty_result
        "error" ["工具返回错误: 未获取到数据"] none :=
  inband_error_downgrades_quality.1 "2026-01-01 09:30:00"
    "get_historical_data" (.vdict [])
    [(.vstr "error", .vstr "未获取到数据")] (.vstr "未获取到数据") rfl

end StockAgent
